import Mathlib

/-!
Verification development for the reactive executor library
(src/src/executors.ts).  The library coordinates state derived from
invocations of caller-supplied "executors" (cold observable-producing
functions).  We give a shallow embedding of the relevant rxjs behaviour:

* `BSubj` models a `BehaviorSubject`: a current value plus the log of all
  values pushed with `next`.
* `ProdEvent` models the events a cold production can deliver to its
  subscriber: `next v`, an error, or completion.
* `execAndForward` models the source function of the same name: it
  subscribes to a production with only a next-handler and forwards every
  emitted value into the target subject; an error or completion stops the
  forwarding and writes nothing (errors are not caught).
* models of `execAlways`, `execOnce`, `execControlled` and the
  `ExecSubject` class follow, each translated from the source.
-/

/-- Model of an rxjs `BehaviorSubject`: its current value together with the
log of every value pushed via `next` (in order). -/
structure BSubj (α : Type) where
  value : α
  log : List α
deriving DecidableEq

/-- Construction `new BehaviorSubject(v0)`. -/
def BSubj.mk0 (v0 : α) : BSubj α := ⟨v0, []⟩

/-- The `next` operation of a `BehaviorSubject`: the current value becomes
`v` and the push is recorded in the log. -/
def BSubj.next (s : BSubj α) (v : α) : BSubj α := ⟨v, s.log ++ [v]⟩

/-- Model of one event delivered by a cold production to its subscriber:
a value emission, an error, or completion. -/
inductive ProdEvent (α : Type) where
  | next (v : α)
  | err (e : α)
  | complete
deriving DecidableEq

/-- Model of the source function `execAndForward`: the production returned
by the executor is subscribed with only a next-handler, so every emitted
value is forwarded into the subject via `subject.next`; an error terminates
the subscription without being caught and without writing to the subject,
and completion likewise ends forwarding.  The argument list is the sequence
of events the production delivers to this subscription. -/
def execAndForward : List (ProdEvent α) → BSubj α → BSubj α
  | [], s => s
  | ProdEvent.next v :: rest, s => execAndForward rest (s.next v)
  | ProdEvent.err _ :: _, s => s
  | ProdEvent.complete :: _, s => s

/-- The values a production delivers before its first error or completion:
exactly the values `execAndForward` forwards into the subject. -/
def prodValues : List (ProdEvent α) → List α
  | ProdEvent.next v :: rest => v :: prodValues rest
  | _ => []

/-- Model of the container built by the source function `execOnce`:
`subject = new BehaviorSubject(initialValue)`, one call to
`execAndForward(exec, subject)` (so exactly one executor invocation, whose
synchronously delivered events are `syncProd`), and the subject itself is
returned.  `invocations` counts executor invocations made for this
container; `subscriberDeliveries` records the value synchronously delivered
to each later subscriber of the returned `BehaviorSubject`. -/
structure OnceState (α : Type) where
  subject : BSubj α
  invocations : Nat
  subscriberDeliveries : List α
deriving DecidableEq

/-- Construction of `execOnce(exec, initialValue)` where the executor
production delivers the events `syncProd` synchronously during the
subscription made by `execAndForward` (the executor contract makes
productions asynchronous, so in the claims `syncProd` is empty). -/
def execOnce (syncProd : List (ProdEvent α)) (v0 : α) : OnceState α :=
  { subject := execAndForward syncProd (BSubj.mk0 v0)
    invocations := 1
    subscriberDeliveries := [] }

/-- An asynchronous emission of the single executor invocation landing in
the container: the still-open forwarding subscription pushes it into the
subject. -/
def onceEmit (st : OnceState α) (x : α) : OnceState α :=
  { st with subject := st.subject.next x }

/-- A new observer subscribing to the returned `BehaviorSubject`: it is
synchronously delivered the current value; no executor invocation happens
on this path in the source. -/
def onceSubscribe (st : OnceState α) : OnceState α :=
  { st with subscriberDeliveries := st.subscriberDeliveries ++ [st.subject.value] }

/-- The effect of `n` successive subscribers attaching to the container
returned by `execOnce`. -/
def onceSubscribeN : Nat → OnceState α → OnceState α
  | 0, st => st
  | Nat.succ n, st => onceSubscribeN n (onceSubscribe st)

/-- Model of the container built by the source function `execControlled`.
`invocations` records, in order, the argument of every executor invocation
performed through `doExec`. -/
structure CtrlState (α A : Type) where
  subject : BSubj α
  invocations : List (Option A)
deriving DecidableEq

/-- Model of the trigger `doExec` defined inside `execControlled`:
`doExec(execArgs?) = execAndForward(exec, subject, execArgs)`.  The
executor is modelled by the synchronous events its production delivers for
given arguments. -/
def doExec (E : Option A → List (ProdEvent α)) (st : CtrlState α A)
    (args : Option A) : CtrlState α A :=
  { subject := execAndForward (E args) st.subject
    invocations := st.invocations ++ [args] }

/-- Construction of `execControlled(exec, control, initialValue,
executeImmediately)`.  The caller-supplied `control` function is modelled
by the list of synchronous trigger calls (with their arguments) it performs
when handed `doExec`; its return value is ignored by the source.  After
`control(doExec)` returns, the source runs `executeImmediately && doExec()`
(a call with no arguments). -/
def execControlled (E : Option A → List (ProdEvent α))
    (ctrlCalls : List (Option A)) (v0 : α) (executeImmediately : Bool) :
    CtrlState α A :=
  let st1 := ctrlCalls.foldl (doExec E) ⟨BSubj.mk0 v0, []⟩
  if executeImmediately then doExec E st1 none else st1

/-- Per-observer state of a subscription to the observable returned by
`execAlways`: the values delivered to this observer so far, and the state
of its `distinctUntilChanged` operator (the last value that operator let
through — on subscription, the replay of the shared subject). -/
structure AlwaysObs (α : Type) where
  received : List α
  lastSeen : α
deriving DecidableEq

/-- Shared closure state of `execAlways(exec, initialValue)`: the shared
`BehaviorSubject`, the number of executor invocations so far, and the
currently subscribed observers. -/
structure AlwaysState (α : Type) where
  subject : BSubj α
  invocations : Nat
  observers : List (AlwaysObs α)
deriving DecidableEq

/-- State of `execAlways(exec, initialValue)` right after the call:
`subject = new BehaviorSubject(initialValue)`, no invocation yet, no
observer yet (the returned Observable is cold). -/
def execAlwaysStart (v0 : α) : AlwaysState α :=
  ⟨BSubj.mk0 v0, 0, []⟩

/-- What one observer pipe of `execAlways` does when the shared subject
pushes `x`: the `distinctUntilChanged` stage suppresses `x` when it equals
the last value let through; otherwise the subscriber callback
`val => val !== initialValue && observer.next(val)` delivers `x` unless it
equals `initialValue`. -/
def alwaysObsOnNext [DecidableEq α] (v0 x : α) (ob : AlwaysObs α) :
    AlwaysObs α :=
  if x = ob.lastSeen then ob
  else { received := ob.received ++ (if x = v0 then [] else [x])
         lastSeen := x }

/-- A push of `x` into the shared subject of `execAlways` (a forwarded
emission from any of the executor invocations): the subject updates and
every subscribed observer pipe processes `x`. -/
def alwaysNext [DecidableEq α] (v0 : α) (st : AlwaysState α) (x : α) :
    AlwaysState α :=
  { subject := st.subject.next x
    invocations := st.invocations
    observers := st.observers.map (alwaysObsOnNext v0 x) }

/-- Model of the subscribe callback of the Observable returned by
`execAlways`, translated line by line from the source: (1) if the shared
subject still holds `initialValue`, deliver `initialValue` to the new
observer; (2) `execAndForward(exec, subject)` — one fresh executor
invocation whose synchronously delivered values (`prodValues syncProd`)
are pushed into the shared subject, reaching the already-subscribed
observer pipes; (3) subscribe the new observer to
`subject.pipe(distinctUntilChanged())`, whose `BehaviorSubject` replay
delivers the current value through the distinct stage and the
`val !== initialValue` guard. -/
def execAlwaysSubscribe [DecidableEq α] (v0 : α)
    (syncProd : List (ProdEvent α)) (st : AlwaysState α) : AlwaysState α :=
  let d0 : List α := if st.subject.value = v0 then [v0] else []
  let st1 := (prodValues syncProd).foldl (alwaysNext v0) st
  let replayed := st1.subject.value
  let ob : AlwaysObs α :=
    ⟨d0 ++ (if replayed = v0 then [] else [replayed]), replayed⟩
  { subject := st1.subject
    invocations := st1.invocations + 1
    observers := st1.observers ++ [ob] }

/-- The effect of `n` successive observers subscribing to the Observable
returned by `execAlways`, each before the executor productions emit
(asynchronous productions, so no synchronous events). -/
def execAlwaysSubscribeN [DecidableEq α] (v0 : α) :
    Nat → AlwaysState α → AlwaysState α
  | 0, st => st
  | Nat.succ n, st => execAlwaysSubscribeN v0 n (execAlwaysSubscribe v0 [] st)

/-- Model of the JavaScript values flowing through an `ExecSubject`
pipeline: numbers, strings, and `Error` objects (carrying their message).
Only `verror` values satisfy `instanceof Error`. -/
inductive JSVal where
  | vnat (n : Nat)
  | vstr (s : String)
  | verror (msg : String)
deriving DecidableEq

/-- The JavaScript test `v instanceof Error` on a pipeline value. -/
def jsIsError : JSVal → Bool
  | JSVal.verror _ => true
  | _ => false

/-- The JavaScript string conversion `String(v)` used by the `Error`
constructor: numbers print as decimal, strings convert to themselves, and
an `Error` converts to `"Error: " + message` (just `"Error"` when the
message is empty). -/
def jsToString : JSVal → String
  | JSVal.vnat n => toString n
  | JSVal.vstr s => s
  | JSVal.verror m => if m = "" then "Error" else "Error: " ++ m

/-- The JavaScript expression `new Error(err)` in
`catchError(err => of(new Error(err)))` inside `ExecSubject.performExec`:
it builds a fresh `Error` whose message is the string conversion of the
caught value. -/
def mkError (v : JSVal) : JSVal := JSVal.verror (jsToString v)

/-- State of an `ExecSubject<T, A>` together with its optional caller-owned
channels.  `value`/`valueLog` model the public `BehaviorSubject` the class
extends; `errorLog`/`loadingLog` are the histories pushed into the `_error`
and `_loading` channels (`none` when the channel was not supplied);
`active` is the invocation id of the inner production `switchMap` is
currently subscribed to, `settled` whether that production has terminated;
`nextId` numbers executor invocations and `execArgsLog` records their
arguments in order. -/
structure ExecState (A : Type) where
  value : JSVal
  valueLog : List JSVal
  errorLog : Option (List JSVal)
  loadingLog : Option (List Bool)
  active : Option Nat
  settled : Bool
  nextId : Nat
  execArgsLog : List A
deriving DecidableEq

/-- State right after `new ExecSubject(executor, v0, error?, loading?)`:
the constructor stores `v0` in the public subject and `init()` subscribes
the pipeline to the (still empty) execution stream. -/
def execSubjectStart (A : Type) (v0 : JSVal) (hasError hasLoading : Bool) :
    ExecState A :=
  { value := v0
    valueLog := []
    errorLog := if hasError then some [] else none
    loadingLog := if hasLoading then some [] else none
    active := none
    settled := true
    nextId := 0
    execArgsLog := [] }

/-- Events driving an `ExecSubject`: a public `exec(args)` call, and the
asynchronous behaviour of executor invocation number `id` — emitting a
value, raising, or completing. -/
inductive ExecEvent (A : Type) where
  | exec (args : A)
  | emit (id : Nat) (v : JSVal)
  | raise (id : Nat) (e : JSVal)
  | complete (id : Nat)
deriving DecidableEq

/-- The executor invocation an event belongs to (`none` for `exec`). -/
def eventInvId : ExecEvent A → Option Nat
  | ExecEvent.exec _ => none
  | ExecEvent.emit id _ => some id
  | ExecEvent.raise id _ => some id
  | ExecEvent.complete id => some id

/-- Push into the loading channel (`this._loading && this._loading.next(b)`):
a no-op when no loading channel was supplied. -/
def pushLoad (s : ExecState A) (b : Bool) : ExecState A :=
  { s with loadingLog := s.loadingLog.map (fun l => l ++ [b]) }

/-- Push into the error channel (`this._error.next(e)`), a no-op when no
error channel was supplied. -/
def pushError (s : ExecState A) (e : JSVal) : ExecState A :=
  { s with errorLog := s.errorLog.map (fun l => l ++ [e]) }

/-- One value of the winning inner production travelling down the pipeline
built in `ExecSubject.init`: the `tap` stage pushes `false` to the loading
channel and, when the value is an `Error` instance and an error channel is
present, pushes it there; the `filter` stage lets only non-`Error` values
through to `this.next(val)`, which updates the public value. -/
def pipelineDeliver (s : ExecState A) (v : JSVal) : ExecState A :=
  let s1 := pushLoad s false
  if jsIsError v then pushError s1 v
  else { s1 with value := v, valueLog := s1.valueLog ++ [v] }

/-- One step of the `ExecSubject` state machine, translated from the
source.  `exec args` runs `this._loading && this._loading.next(true)` and
pushes `args` into `_executionStream`; `switchMap` then unsubscribes the
previous inner production and subscribes to
`performExec(this._executor, args)`, the fresh invocation getting id
`nextId`.  An `emit`/`raise`/`complete` of an invocation that is not the
currently subscribed one is a no-op: `switchMap` already unsubscribed it.
For the active invocation, `emit` delivers the value down the pipeline;
`raise` is turned by `catchError(err => of(new Error(err)))` into the
delivery of the wrapped error followed by inner completion; `complete`
just ends the inner production. -/
def execStep (s : ExecState A) : ExecEvent A → ExecState A
  | ExecEvent.exec args =>
      { pushLoad s true with
          active := some s.nextId
          settled := false
          nextId := s.nextId + 1
          execArgsLog := s.execArgsLog ++ [args] }
  | ExecEvent.emit id v =>
      if s.active = some id ∧ s.settled = false then pipelineDeliver s v
      else s
  | ExecEvent.raise id e =>
      if s.active = some id ∧ s.settled = false then
        { pipelineDeliver s (mkError e) with settled := true }
      else s
  | ExecEvent.complete id =>
      if s.active = some id then { s with settled := true } else s

/-- Run an `ExecSubject` over a sequence of events. -/
def execRun (s : ExecState A) : List (ExecEvent A) → ExecState A
  | [] => s
  | ev :: rest => execRun (execStep s ev) rest

theorem execAndForward_map_next (vs : List α) (s : BSubj α) :
    execAndForward (vs.map ProdEvent.next) s = vs.foldl BSubj.next s := by
  induction vs generalizing s with
  | nil => rfl
  | cons v rest ih => simp [execAndForward, List.foldl, ih]

theorem execAndForward_stops_at_err (vs : List α) (e : α)
    (post : List (ProdEvent α)) (s : BSubj α) :
    execAndForward (vs.map ProdEvent.next ++ ProdEvent.err e :: post) s
      = vs.foldl BSubj.next s := by
  induction vs generalizing s with
  | nil => rfl
  | cons v rest ih => simp [execAndForward, List.foldl, ih]

theorem prodValues_stops_at_err (vs : List α) (e : α)
    (post : List (ProdEvent α)) :
    prodValues (vs.map ProdEvent.next ++ ProdEvent.err e :: post) = vs := by
  induction vs with
  | nil => rfl
  | cons v rest ih => simp [prodValues, ih]

theorem onceSubscribeN_invocations (n : Nat) (st : OnceState α) :
    (onceSubscribeN n st).invocations = st.invocations
    ∧ (onceSubscribeN n st).subject = st.subject
    ∧ (onceSubscribeN n st).subscriberDeliveries
        = st.subscriberDeliveries ++ List.replicate n st.subject.value := by
  induction n generalizing st with
  | zero => simp [onceSubscribeN]
  | succ n ih =>
    obtain ⟨h1, h2, h3⟩ := ih (onceSubscribe st)
    refine ⟨by simpa [onceSubscribe] using h1, by simpa [onceSubscribe] using h2, ?_⟩
    rw [onceSubscribeN, h3]
    simp [onceSubscribe, List.replicate_succ]

theorem ctrl_foldl_invocations (E : Option A → List (ProdEvent α))
    (calls : List (Option A)) (st : CtrlState α A) :
    (calls.foldl (doExec E) st).invocations = st.invocations ++ calls := by
  induction calls generalizing st with
  | nil => simp
  | cons c rest ih => simp [List.foldl, ih, doExec]

/-- Claim C4: `execOnce(E, v0)` with an asynchronous executor production
(no synchronous events) yields a container whose value right after
construction is `v0`; after the first emission `x` of the production the
value is `x`; and the executor is invoked exactly once no matter how many
subscribers attach afterward (each subscriber is delivered the current
value, `v0` for subscribers attaching before the first emission). -/
theorem execOnce_spec (v0 x : α) (n m : Nat) :
    (execOnce [] v0).subject.value = v0
    ∧ (onceEmit (execOnce [] v0) x).subject.value = x
    ∧ (onceSubscribeN n (execOnce [] v0)).invocations = 1
    ∧ (onceSubscribeN n (onceEmit (execOnce [] v0) x)).invocations = 1
    ∧ (onceSubscribeN m (execOnce [] v0)).subscriberDeliveries
        = List.replicate m v0 := by
  refine ⟨rfl, rfl, ?_, ?_, ?_⟩
  · exact (onceSubscribeN_invocations n _).1
  · exact (onceSubscribeN_invocations n _).1
  · simpa [execOnce, execAndForward, BSubj.mk0]
      using (onceSubscribeN_invocations m (execOnce [] v0)).2.2

/-- Claim C7: in `execControlled(E, control, v0, executeImmediately)` the
executor invocations made during construction are exactly the trigger calls
performed by `control`, followed — when `executeImmediately` is true — by
one invocation with no arguments; so with `executeImmediately = true` and a
`control` that does not invoke the trigger, `E` is invoked exactly once,
with no arguments, after `control` was handed the trigger; and with
`executeImmediately = false`, `E` is invoked only by `control` itself (or a
later holder of the trigger). -/
theorem execControlled_spec (E : Option A → List (ProdEvent α))
    (ctrlCalls : List (Option A)) (v0 : α) (b : Bool) :
    (execControlled E ctrlCalls v0 b).invocations
      = ctrlCalls ++ (if b then [Option.none] else []) := by
  unfold execControlled
  cases b with
  | false => simpa using ctrl_foldl_invocations E ctrlCalls ⟨BSubj.mk0 v0, []⟩
  | true =>
    simp only [if_pos, doExec]
    rw [ctrl_foldl_invocations E ctrlCalls ⟨BSubj.mk0 v0, []⟩]
    simp

/-- Claim C8: `execAndForward` (used by `execAlways`, `execOnce` and
`execControlled`) does not catch errors: when the production delivers
values `vs` and then raises, the subject receives exactly the forwarded
values `vs` — no error value is forwarded, the subject is unchanged by the
failure itself, and the subscription has terminated, so the events `post`
after the error never reach the subject.  The last two conjuncts state the
same for the `execOnce` container and for an `execControlled` trigger
invocation, which forward through the same primitive. -/
theorem execAndForward_no_catch (vs : List α) (e : α)
    (post : List (ProdEvent α)) (s : BSubj α) (v0 : α) :
    execAndForward (vs.map ProdEvent.next ++ ProdEvent.err e :: post) s
      = vs.foldl BSubj.next s
    ∧ prodValues (vs.map ProdEvent.next ++ ProdEvent.err e :: post) = vs
    ∧ (execOnce (vs.map ProdEvent.next ++ ProdEvent.err e :: post) v0).subject
        = vs.foldl BSubj.next (BSubj.mk0 v0)
    ∧ (doExec (A := Unit)
        (fun _ => vs.map ProdEvent.next ++ ProdEvent.err e :: post)
        ⟨BSubj.mk0 v0, []⟩ none).subject
        = vs.foldl BSubj.next (BSubj.mk0 v0) := by
  refine ⟨execAndForward_stops_at_err vs e post s,
    prodValues_stops_at_err vs e post, ?_, ?_⟩
  · simp [execOnce, execAndForward_stops_at_err]
  · simp [doExec, execAndForward_stops_at_err]

theorem execAlwaysSubscribeN_closed [DecidableEq α] (v0 : α) (n : Nat)
    (k : Nat) (obs : List (AlwaysObs α)) :
    execAlwaysSubscribeN v0 n ⟨BSubj.mk0 v0, k, obs⟩
      = ⟨BSubj.mk0 v0, k + n, obs ++ List.replicate n ⟨[v0], v0⟩⟩ := by
  induction n generalizing k obs with
  | zero => simp [execAlwaysSubscribeN]
  | succ n ih =>
    rw [execAlwaysSubscribeN]
    have hsub : execAlwaysSubscribe v0 [] (⟨BSubj.mk0 v0, k, obs⟩ : AlwaysState α)
        = ⟨BSubj.mk0 v0, k + 1, obs ++ [⟨[v0], v0⟩]⟩ := by
      simp [execAlwaysSubscribe, prodValues, BSubj.mk0]
    rw [hsub, ih]
    simp [List.replicate_succ]
    omega

/-- Claim C5: with an asynchronous executor (no emission yet), each of `n`
observers subscribing to `execAlways(E, v0)` is delivered `v0` exactly once
(the explicit initial delivery; the `BehaviorSubject` replay of `v0` is
blocked by the `val !== initialValue` guard), and each subscription makes
one fresh executor invocation — `n` subscriptions, `n` invocations — while
all observers share the single internal subject, which is unchanged. -/
theorem execAlways_initial_delivery [DecidableEq α] (v0 : α) (n : Nat) :
    (execAlwaysSubscribeN v0 n (execAlwaysStart v0)).invocations = n
    ∧ (execAlwaysSubscribeN v0 n (execAlwaysStart v0)).observers.map
        (fun ob => ob.received) = List.replicate n [v0]
    ∧ (execAlwaysSubscribeN v0 n (execAlwaysStart v0)).subject
        = BSubj.mk0 v0 := by
  have h := execAlwaysSubscribeN_closed v0 n 0 []
  rw [execAlwaysStart, h]
  refine ⟨by simp, ?_, rfl⟩
  simp [List.map_replicate]

theorem alwaysObsOnNext_idem [DecidableEq α] (v0 x : α) (ob : AlwaysObs α) :
    alwaysObsOnNext v0 x (alwaysObsOnNext v0 x ob) = alwaysObsOnNext v0 x ob := by
  unfold alwaysObsOnNext
  by_cases hx : x = ob.lastSeen
  · simp [hx]
  · simp [hx]

theorem alwaysObsOnNext_init_received [DecidableEq α] (v0 : α)
    (ob : AlwaysObs α) :
    (alwaysObsOnNext v0 v0 ob).received = ob.received := by
  unfold alwaysObsOnNext
  by_cases hx : v0 = ob.lastSeen <;> simp [hx]

/-- Claim C6: in the stream returned by `execAlways`, a second consecutive
push of the same value `x` into the shared subject changes no observer
state (the `distinctUntilChanged` stage suppresses it), so two equal
consecutive emissions yield at most one delivery; and a push of a value
equal to `initialValue` is never delivered to any observer (the
`val !== initialValue` guard). -/
theorem execAlways_distinct [DecidableEq α] (v0 x : α) (st : AlwaysState α) :
    (alwaysNext v0 (alwaysNext v0 st x) x).observers
      = (alwaysNext v0 st x).observers
    ∧ (alwaysNext v0 st v0).observers.map (fun ob => ob.received)
      = st.observers.map (fun ob => ob.received) := by
  constructor
  · show (st.observers.map (alwaysObsOnNext v0 x)).map (alwaysObsOnNext v0 x)
      = st.observers.map (alwaysObsOnNext v0 x)
    rw [List.map_map]
    exact List.map_congr_left (fun ob _ => alwaysObsOnNext_idem v0 x ob)
  · show (st.observers.map (alwaysObsOnNext v0 v0)).map (fun ob => ob.received)
      = st.observers.map (fun ob => ob.received)
    rw [List.map_map]
    exact List.map_congr_left
      (fun ob _ => alwaysObsOnNext_init_received v0 ob)

/-- Witness for claim C4 at concrete inputs. -/
theorem execOnce_spec_wit :
    (execOnce [] 0).subject.value = 0
    ∧ (onceEmit (execOnce [] 0) 7).subject.value = 7
    ∧ (onceSubscribeN 2 (execOnce [] 0)).invocations = 1
    ∧ (onceSubscribeN 2 (onceEmit (execOnce [] 0) 7)).invocations = 1
    ∧ (onceSubscribeN 3 (execOnce ([] : List (ProdEvent Nat)) 0)).subscriberDeliveries
        = List.replicate 3 0 :=
  execOnce_spec 0 7 2 3

/-- Witness for claim C5 at concrete inputs: three subscribers, three
invocations, each delivered the initial value 4 exactly once. -/
theorem execAlways_initial_delivery_wit :
    (execAlwaysSubscribeN 4 3 (execAlwaysStart (4 : Nat))).invocations = 3
    ∧ (execAlwaysSubscribeN 4 3 (execAlwaysStart (4 : Nat))).observers.map
        (fun ob => ob.received) = List.replicate 3 [4]
    ∧ (execAlwaysSubscribeN 4 3 (execAlwaysStart (4 : Nat))).subject
        = BSubj.mk0 4 :=
  execAlways_initial_delivery 4 3

/-- Witness for claim C6 at a concrete state with one observer. -/
theorem execAlways_distinct_wit :
    (alwaysNext 0 (alwaysNext 0
        (⟨⟨0, []⟩, 1, [⟨[0], 0⟩]⟩ : AlwaysState Nat) 5) 5).observers
      = (alwaysNext 0 (⟨⟨0, []⟩, 1, [⟨[0], 0⟩]⟩ : AlwaysState Nat) 5).observers
    ∧ (alwaysNext 0
        (⟨⟨0, []⟩, 1, [⟨[0], 0⟩]⟩ : AlwaysState Nat) 0).observers.map
        (fun ob => ob.received)
      = (⟨⟨0, []⟩, 1, [⟨[0], 0⟩]⟩ : AlwaysState Nat).observers.map
        (fun ob => ob.received) :=
  execAlways_distinct 0 5 ⟨⟨0, []⟩, 1, [⟨[0], 0⟩]⟩

/-- Witness for claim C7 at concrete inputs: one trigger call by the
control function, then the immediate call with no arguments. -/
theorem execControlled_spec_wit :
    (execControlled (fun _ => ([] : List (ProdEvent Nat)))
        [some 3] 0 true).invocations
      = [some 3] ++ (if true then [Option.none] else []) :=
  execControlled_spec (fun _ => ([] : List (ProdEvent Nat))) [some 3] 0 true

/-- Witness for claim C8 at concrete inputs: values 1, 2 forwarded, then a
raise; the error and the value 3 after it never reach the subject. -/
theorem execAndForward_no_catch_wit :
    execAndForward (([1, 2] : List Nat).map ProdEvent.next
        ++ ProdEvent.err 9 :: [ProdEvent.next 3]) (BSubj.mk0 0)
      = ([1, 2] : List Nat).foldl BSubj.next (BSubj.mk0 0)
    ∧ prodValues (([1, 2] : List Nat).map ProdEvent.next
        ++ ProdEvent.err 9 :: [ProdEvent.next 3]) = [1, 2]
    ∧ (execOnce (([1, 2] : List Nat).map ProdEvent.next
        ++ ProdEvent.err 9 :: [ProdEvent.next 3]) 0).subject
      = ([1, 2] : List Nat).foldl BSubj.next (BSubj.mk0 0)
    ∧ (doExec (A := Unit)
        (fun _ => ([1, 2] : List Nat).map ProdEvent.next
          ++ ProdEvent.err 9 :: [ProdEvent.next 3])
        ⟨BSubj.mk0 0, []⟩ none).subject
      = ([1, 2] : List Nat).foldl BSubj.next (BSubj.mk0 0) :=
  execAndForward_no_catch [1, 2] 9 [ProdEvent.next 3] (BSubj.mk0 0) 0

theorem execRun_append (s : ExecState A) (l1 l2 : List (ExecEvent A)) :
    execRun s (l1 ++ l2) = execRun (execRun s l1) l2 := by
  induction l1 generalizing s with
  | nil => rfl
  | cons ev rest ih => simp [execRun, ih]

theorem execStep_noop (s : ExecState A) (ev : ExecEvent A) (j : Nat)
    (hev : eventInvId ev = some j) (hs : s.active ≠ some j) :
    execStep s ev = s := by
  cases ev with
  | exec args => simp [eventInvId] at hev
  | emit id v =>
    obtain rfl : id = j := by simpa [eventInvId] using hev
    simp only [execStep]
    rw [if_neg (fun h => hs h.1)]
  | raise id e =>
    obtain rfl : id = j := by simpa [eventInvId] using hev
    simp only [execStep]
    rw [if_neg (fun h => hs h.1)]
  | complete id =>
    obtain rfl : id = j := by simpa [eventInvId] using hev
    simp only [execStep]
    rw [if_neg hs]

theorem execRun_noop_superseded (s : ExecState A) (k : Nat)
    (hs : s.active = some k) (tr : List (ExecEvent A)) (j : Nat)
    (hjk : j ≠ k) (htr : ∀ ev ∈ tr, eventInvId ev = some j) :
    execRun s tr = s := by
  induction tr with
  | nil => rfl
  | cons ev rest ih =>
    have hev := htr ev (List.mem_cons_self ev rest)
    have hstep : execStep s ev = s := by
      refine execStep_noop s ev j hev ?_
      rw [hs]
      intro h
      exact hjk (Option.some.inj h).symm
    rw [execRun, hstep]
    exact ih (fun e he => htr e (List.mem_cons_of_mem ev he))

theorem jsIsError_verror (m : String) : jsIsError (JSVal.verror m) = true := rfl

theorem execStep_emit_value (s : ExecState A) (id : Nat) (y : JSVal)
    (hact : s.active = some id) (hset : s.settled = false)
    (hy : jsIsError y = false) :
    (execStep s (ExecEvent.emit id y)).value = y
    ∧ (execStep s (ExecEvent.emit id y)).active = s.active := by
  simp [execStep, hact, hset, pipelineDeliver, pushLoad, hy]

/-- Claim C1: on an `ExecSubject`, after `exec(a1)` followed by `exec(a2)`
before the first invocation produced anything, the first invocation has
been unsubscribed by `switchMap`: any behaviour of invocation 0 (emissions,
raising, completing, in any order) leaves the whole state unchanged, and
the public value ends up reflecting only the second invocation — it equals
the second invocation's output `y` whether invocation 0 acts before or
after invocation 1 emits. -/
theorem execSubject_supersede (v0 : JSVal) (he hl : Bool) (a1 a2 : A)
    (y : JSVal) (hy : jsIsError y = false) (tr0 : List (ExecEvent A))
    (h0 : ∀ ev ∈ tr0, eventInvId ev = some 0) :
    execRun (execRun (execSubjectStart A v0 he hl)
        [ExecEvent.exec a1, ExecEvent.exec a2]) tr0
      = execRun (execSubjectStart A v0 he hl)
        [ExecEvent.exec a1, ExecEvent.exec a2]
    ∧ (execRun (execRun (execSubjectStart A v0 he hl)
        [ExecEvent.exec a1, ExecEvent.exec a2])
        (tr0 ++ [ExecEvent.emit 1 y])).value = y
    ∧ (execRun (execRun (execSubjectStart A v0 he hl)
        [ExecEvent.exec a1, ExecEvent.exec a2])
        (ExecEvent.emit 1 y :: tr0)).value = y := by
  have hact : (execRun (execSubjectStart A v0 he hl)
      [ExecEvent.exec a1, ExecEvent.exec a2]).active = some 1 := by
    simp [execRun, execStep, execSubjectStart, pushLoad]
  have hset : (execRun (execSubjectStart A v0 he hl)
      [ExecEvent.exec a1, ExecEvent.exec a2]).settled = false := by
    simp [execRun, execStep, execSubjectStart, pushLoad]
  have h1 : execRun (execRun (execSubjectStart A v0 he hl)
      [ExecEvent.exec a1, ExecEvent.exec a2]) tr0
      = execRun (execSubjectStart A v0 he hl)
        [ExecEvent.exec a1, ExecEvent.exec a2] :=
    execRun_noop_superseded _ 1 hact tr0 0 (by omega) h0
  refine ⟨h1, ?_, ?_⟩
  · rw [execRun_append, h1]
    show (execRun (execStep _ (ExecEvent.emit 1 y)) []).value = y
    exact (execStep_emit_value _ 1 y hact hset hy).1
  · have hact3 : (execStep (execRun (execSubjectStart A v0 he hl)
        [ExecEvent.exec a1, ExecEvent.exec a2])
        (ExecEvent.emit 1 y)).active = some 1 := by
      rw [(execStep_emit_value _ 1 y hact hset hy).2]
      exact hact
    have h3 := execRun_noop_superseded _ 1 hact3 tr0 0 (by omega) h0
    rw [execRun, h3]
    exact (execStep_emit_value _ 1 y hact hset hy).1

/-- Witness for claim C1 at concrete inputs: after `exec 1` then `exec 2`,
the superseded invocation 0 may emit, raise and complete without changing
anything, and the value ends at the second invocation's output 7. -/
theorem execSubject_supersede_wit :
    execRun (execRun (execSubjectStart Nat (JSVal.vnat 0) false false)
        [ExecEvent.exec 1, ExecEvent.exec 2])
        [ExecEvent.emit 0 (JSVal.vnat 5), ExecEvent.raise 0 (JSVal.vstr "x"),
         ExecEvent.complete 0]
      = execRun (execSubjectStart Nat (JSVal.vnat 0) false false)
        [ExecEvent.exec 1, ExecEvent.exec 2]
    ∧ (execRun (execRun (execSubjectStart Nat (JSVal.vnat 0) false false)
        [ExecEvent.exec 1, ExecEvent.exec 2])
        ([ExecEvent.emit 0 (JSVal.vnat 5), ExecEvent.raise 0 (JSVal.vstr "x"),
          ExecEvent.complete 0] ++ [ExecEvent.emit 1 (JSVal.vnat 7)])).value
      = JSVal.vnat 7
    ∧ (execRun (execRun (execSubjectStart Nat (JSVal.vnat 0) false false)
        [ExecEvent.exec 1, ExecEvent.exec 2])
        (ExecEvent.emit 1 (JSVal.vnat 7) ::
          [ExecEvent.emit 0 (JSVal.vnat 5), ExecEvent.raise 0 (JSVal.vstr "x"),
           ExecEvent.complete 0])).value = JSVal.vnat 7 :=
  execSubject_supersede (JSVal.vnat 0) false false 1 2 (JSVal.vnat 7)
    (by decide)
    [ExecEvent.emit 0 (JSVal.vnat 5), ExecEvent.raise 0 (JSVal.vstr "x"),
     ExecEvent.complete 0]
    (by decide)

/-- Claim C2: on an `ExecSubject` with loading and error channels, a raise
of the single in-flight invocation pushes `true` then `false` to the
loading channel, leaves the public value (and its log) unchanged, and
pushes the wrapped failure to the error channel; and the object stays
usable — a further `exec` whose invocation emits a non-error `y` updates
the public value to `y`, with the loading channel recording the second
`true`/`false` pair and no further error. -/
theorem execSubject_raise_recovery (v0 : JSVal) (a1 a2 : A) (e y : JSVal)
    (hy : jsIsError y = false) :
    (execRun (execSubjectStart A v0 true true)
        [ExecEvent.exec a1, ExecEvent.raise 0 e]).value = v0
    ∧ (execRun (execSubjectStart A v0 true true)
        [ExecEvent.exec a1, ExecEvent.raise 0 e]).valueLog = []
    ∧ (execRun (execSubjectStart A v0 true true)
        [ExecEvent.exec a1, ExecEvent.raise 0 e]).loadingLog
      = some [true, false]
    ∧ (execRun (execSubjectStart A v0 true true)
        [ExecEvent.exec a1, ExecEvent.raise 0 e]).errorLog
      = some [mkError e]
    ∧ (execRun (execSubjectStart A v0 true true)
        [ExecEvent.exec a1, ExecEvent.raise 0 e, ExecEvent.exec a2,
         ExecEvent.emit 1 y]).value = y
    ∧ (execRun (execSubjectStart A v0 true true)
        [ExecEvent.exec a1, ExecEvent.raise 0 e, ExecEvent.exec a2,
         ExecEvent.emit 1 y]).valueLog = [y]
    ∧ (execRun (execSubjectStart A v0 true true)
        [ExecEvent.exec a1, ExecEvent.raise 0 e, ExecEvent.exec a2,
         ExecEvent.emit 1 y]).loadingLog = some [true, false, true, false]
    ∧ (execRun (execSubjectStart A v0 true true)
        [ExecEvent.exec a1, ExecEvent.raise 0 e, ExecEvent.exec a2,
         ExecEvent.emit 1 y]).errorLog = some [mkError e] := by
  simp [execRun, execStep, execSubjectStart, pushLoad, pushError,
    pipelineDeliver, mkError, jsIsError_verror, hy]

/-- Witness for claim C2 at concrete inputs. -/
theorem execSubject_raise_recovery_wit :
    (execRun (execSubjectStart Nat (JSVal.vnat 0) true true)
        [ExecEvent.exec 1, ExecEvent.raise 0 (JSVal.vstr "bad")]).value
      = JSVal.vnat 0
    ∧ (execRun (execSubjectStart Nat (JSVal.vnat 0) true true)
        [ExecEvent.exec 1, ExecEvent.raise 0 (JSVal.vstr "bad")]).valueLog = []
    ∧ (execRun (execSubjectStart Nat (JSVal.vnat 0) true true)
        [ExecEvent.exec 1, ExecEvent.raise 0 (JSVal.vstr "bad")]).loadingLog
      = some [true, false]
    ∧ (execRun (execSubjectStart Nat (JSVal.vnat 0) true true)
        [ExecEvent.exec 1, ExecEvent.raise 0 (JSVal.vstr "bad")]).errorLog
      = some [mkError (JSVal.vstr "bad")]
    ∧ (execRun (execSubjectStart Nat (JSVal.vnat 0) true true)
        [ExecEvent.exec 1, ExecEvent.raise 0 (JSVal.vstr "bad"),
         ExecEvent.exec 2, ExecEvent.emit 1 (JSVal.vnat 6)]).value
      = JSVal.vnat 6
    ∧ (execRun (execSubjectStart Nat (JSVal.vnat 0) true true)
        [ExecEvent.exec 1, ExecEvent.raise 0 (JSVal.vstr "bad"),
         ExecEvent.exec 2, ExecEvent.emit 1 (JSVal.vnat 6)]).valueLog
      = [JSVal.vnat 6]
    ∧ (execRun (execSubjectStart Nat (JSVal.vnat 0) true true)
        [ExecEvent.exec 1, ExecEvent.raise 0 (JSVal.vstr "bad"),
         ExecEvent.exec 2, ExecEvent.emit 1 (JSVal.vnat 6)]).loadingLog
      = some [true, false, true, false]
    ∧ (execRun (execSubjectStart Nat (JSVal.vnat 0) true true)
        [ExecEvent.exec 1, ExecEvent.raise 0 (JSVal.vstr "bad"),
         ExecEvent.exec 2, ExecEvent.emit 1 (JSVal.vnat 6)]).errorLog
      = some [mkError (JSVal.vstr "bad")] :=
  execSubject_raise_recovery (JSVal.vnat 0) 1 2 (JSVal.vstr "bad")
    (JSVal.vnat 6) (by decide)

/-- Counterexample to claim C3 as stated: the `tap` stage of the
`ExecSubject` pipeline pushes `false` to the loading channel on every
value the winning production emits, not when the production settles.  With
a multi-valued production, after `exec 1` and a single emission of
invocation 0 the loading channel already reads `[true, false]`, although
the production has neither completed nor raised (it is still the active,
unsettled invocation) — refuting that loading is not set to false before
the production settles. -/
theorem execSubject_loading_cex :
    (execRun (execSubjectStart Nat (JSVal.vnat 0) false true)
        [ExecEvent.exec 1, ExecEvent.emit 0 (JSVal.vnat 5)]).loadingLog
      = some [true, false]
    ∧ (execRun (execSubjectStart Nat (JSVal.vnat 0) false true)
        [ExecEvent.exec 1, ExecEvent.emit 0 (JSVal.vnat 5)]).settled = false
    ∧ (execRun (execSubjectStart Nat (JSVal.vnat 0) false true)
        [ExecEvent.exec 1, ExecEvent.emit 0 (JSVal.vnat 5)]).active = some 0
    ∧ (execRun (execSubjectStart Nat (JSVal.vnat 0) false true)
        [ExecEvent.exec 1, ExecEvent.emit 0 (JSVal.vnat 5)]).value
      = JSVal.vnat 5 := by
  decide

/-- Claim C3 as amended: every `exec(args)` call pushes `true` to the
loading channel immediately, and the pipeline pushes `false` on each value
the active unsettled invocation delivers — each successful emission and
the caught-failure marker of a raise — so for a multi-valued production
loading turns false already at the first emission, before the production
settles. -/
theorem execSubject_loading_amended (s : ExecState A) (a : A) (id : Nat)
    (v e : JSVal) (hact : s.active = some id) (hset : s.settled = false) :
    (execStep s (ExecEvent.exec a)).loadingLog
      = s.loadingLog.map (fun l => l ++ [true])
    ∧ (execStep s (ExecEvent.emit id v)).loadingLog
      = s.loadingLog.map (fun l => l ++ [false])
    ∧ (execStep s (ExecEvent.raise id e)).loadingLog
      = s.loadingLog.map (fun l => l ++ [false]) := by
  refine ⟨by simp [execStep, pushLoad], ?_, ?_⟩
  · cases hv : jsIsError v <;>
      simp [execStep, hact, hset, pipelineDeliver, pushLoad, pushError, hv]
  · simp [execStep, hact, hset, pipelineDeliver, pushLoad, pushError,
      mkError, jsIsError_verror]

/-- Witness for the amended claim C3 at a concrete state with invocation 0
in flight. -/
theorem execSubject_loading_amended_wit :
    (execStep (execRun (execSubjectStart Nat (JSVal.vnat 0) false true)
        [ExecEvent.exec 1]) (ExecEvent.exec 2)).loadingLog
      = (execRun (execSubjectStart Nat (JSVal.vnat 0) false true)
          [ExecEvent.exec 1]).loadingLog.map (fun l => l ++ [true])
    ∧ (execStep (execRun (execSubjectStart Nat (JSVal.vnat 0) false true)
        [ExecEvent.exec 1]) (ExecEvent.emit 0 (JSVal.vnat 5))).loadingLog
      = (execRun (execSubjectStart Nat (JSVal.vnat 0) false true)
          [ExecEvent.exec 1]).loadingLog.map (fun l => l ++ [false])
    ∧ (execStep (execRun (execSubjectStart Nat (JSVal.vnat 0) false true)
        [ExecEvent.exec 1]) (ExecEvent.raise 0 (JSVal.vstr "bad"))).loadingLog
      = (execRun (execSubjectStart Nat (JSVal.vnat 0) false true)
          [ExecEvent.exec 1]).loadingLog.map (fun l => l ++ [false]) :=
  execSubject_loading_amended
    (execRun (execSubjectStart Nat (JSVal.vnat 0) false true)
      [ExecEvent.exec 1])
    2 0 (JSVal.vnat 5) (JSVal.vstr "bad") (by decide) (by decide)

/-- Claim C9: the `ExecSubject` pipeline distinguishes failure from
success only by `result instanceof Error`.  An executor invocation that
successfully emits an `Error` instance therefore never updates the public
value (the emission is filtered out), and with an error channel present the
emitted value itself is pushed to the error channel, with the loading
channel cleared — the same routing as for a raised failure. -/
theorem execSubject_errorValue (v0 err : JSVal) (a1 : A)
    (herr : jsIsError err = true) :
    (execRun (execSubjectStart A v0 true true)
        [ExecEvent.exec a1, ExecEvent.emit 0 err]).value = v0
    ∧ (execRun (execSubjectStart A v0 true true)
        [ExecEvent.exec a1, ExecEvent.emit 0 err]).valueLog = []
    ∧ (execRun (execSubjectStart A v0 true true)
        [ExecEvent.exec a1, ExecEvent.emit 0 err]).errorLog = some [err]
    ∧ (execRun (execSubjectStart A v0 true true)
        [ExecEvent.exec a1, ExecEvent.emit 0 err]).loadingLog
      = some [true, false] := by
  simp [execRun, execStep, execSubjectStart, pushLoad, pushError,
    pipelineDeliver, herr]

/-- Witness for claim C9: an executor that successfully emits
`Error("boom")` leaves the value at 0 and routes the object to the error
channel. -/
theorem execSubject_errorValue_wit :
    (execRun (execSubjectStart Nat (JSVal.vnat 0) true true)
        [ExecEvent.exec 1, ExecEvent.emit 0 (JSVal.verror "boom")]).value
      = JSVal.vnat 0
    ∧ (execRun (execSubjectStart Nat (JSVal.vnat 0) true true)
        [ExecEvent.exec 1, ExecEvent.emit 0 (JSVal.verror "boom")]).valueLog
      = []
    ∧ (execRun (execSubjectStart Nat (JSVal.vnat 0) true true)
        [ExecEvent.exec 1, ExecEvent.emit 0 (JSVal.verror "boom")]).errorLog
      = some [JSVal.verror "boom"]
    ∧ (execRun (execSubjectStart Nat (JSVal.vnat 0) true true)
        [ExecEvent.exec 1, ExecEvent.emit 0 (JSVal.verror "boom")]).loadingLog
      = some [true, false] :=
  execSubject_errorValue (JSVal.vnat 0) (JSVal.verror "boom") 1 (by decide)

theorem errWrapString_ne (m : String) :
    (if m = "" then "Error" else "Error: " ++ m) ≠ m := by
  by_cases hm : m = ""
  · subst hm
    decide
  · rw [if_neg hm]
    intro h
    have hlen := congrArg String.length h
    rw [String.length_append] at hlen
    have h7 : String.length "Error: " = 7 := by decide
    omega

theorem mkError_ne (v : JSVal) : mkError v ≠ v := by
  cases v with
  | vnat n => simp [mkError]
  | vstr s => simp [mkError, jsToString]
  | verror m =>
    simp only [mkError, jsToString, ne_eq, JSVal.verror.injEq]
    exact errWrapString_ne m

/-- Claim C10: when an invocation made through `ExecSubject` raises `err`,
`performExec` routes `new Error(err)` — a freshly built `Error` whose
message is the string conversion of `err` — to the error channel, never
the raised value itself.  In particular, raising an `Error` with message
`m` puts onto the channel an `Error` distinct from the raised one, whose
message derives from the string conversion of the raised `Error`. -/
theorem execSubject_wrapsRaised (v0 : JSVal) (a1 : A) (m : String) :
    (execRun (execSubjectStart A v0 true true)
        [ExecEvent.exec a1, ExecEvent.raise 0 (JSVal.verror m)]).errorLog
      = some [JSVal.verror (jsToString (JSVal.verror m))]
    ∧ mkError (JSVal.verror m) ≠ JSVal.verror m
    ∧ ∀ e : JSVal, mkError e ≠ e := by
  refine ⟨?_, mkError_ne _, mkError_ne⟩
  simp [execRun, execStep, execSubjectStart, pushLoad, pushError,
    pipelineDeliver, mkError, jsIsError_verror]

/-- Witness for claim C10: raising `Error("boom")` puts an `Error` with
message `"Error: boom"` onto the channel, and the wrapper never equals the
raised value. -/
theorem execSubject_wrapsRaised_wit :
    (execRun (execSubjectStart Nat (JSVal.vnat 0) true true)
        [ExecEvent.exec 1, ExecEvent.raise 0 (JSVal.verror "boom")]).errorLog
      = some [JSVal.verror (jsToString (JSVal.verror "boom"))]
    ∧ mkError (JSVal.verror "boom") ≠ JSVal.verror "boom"
    ∧ mkError (JSVal.vstr "boom") ≠ JSVal.vstr "boom" :=
  ⟨(execSubject_wrapsRaised (A := Nat) (JSVal.vnat 0) 1 "boom").1,
   (execSubject_wrapsRaised (A := Nat) (JSVal.vnat 0) 1 "boom").2.1,
   (execSubject_wrapsRaised (A := Nat) (JSVal.vnat 0) 1 "boom").2.2
     (JSVal.vstr "boom")⟩
